/-
Verification of the f5-xc-security-logs-export repository against its
natural-language specification.

The development shallowly embeds the behaviourally relevant parts of the
source (src/XC.py, src/main.py, src/utils.py):

* HTTP transport is modelled by value: a request either yields a decoded
  response (`some r`) or fails with a transport/decode error (`none`).
* The scroll paginator `XC.get_security_events` consumes a stream of
  server responses (one per issued request, in order); an exhausted or
  `none` entry models a request that raised RequestException/ValueError.
* Python machine-level details: `str.endswith` is modelled as suffix of
  the character list, the `in` operator as contiguous-substring search,
  Python `int` as `Int`, and `datetime.strftime` as explicit zero-padded
  decimal rendering (valid for field ranges enforced by Python's
  `datetime` type: year 1..9999, month 1..12, and so on).
-/
import Mathlib

set_option maxRecDepth 100000

/-- Python `s.endswith(suf)`: `suf` is a suffix of the character sequence of `s`. -/
def strEndsWith (s suf : String) : Bool :=
  suf.data.isSuffixOf s.data

/-- Helper for the Python `in` operator on strings: `ned` occurs as a
contiguous substring of the haystack character list (the empty needle
always occurs, matching Python). -/
def containsSub (ned : List Char) : List Char → Bool
  | [] => ned.isEmpty
  | c :: t => ned.isPrefixOf (c :: t) || containsSub ned t

/-- Python `sub in s` for strings. -/
def strContains (s sub : String) : Bool :=
  containsSub sub.data s.data

/-- A load balancer record as returned by the `http_loadbalancers`
endpoint; only `name` is inspected by the code, `payload` stands for all
remaining opaque configuration fields that are passed through. -/
structure LoadBalancer where
  name : String
  payload : Nat
deriving DecidableEq

/-- Embedding of `XC.get_all_loadbalancers` (src/XC.py lines 277-309).
`resp` is the decoded JSON of the GET on the load-balancer collection
(`none` models a RequestException / ValueError / any other exception,
which the function catches, logs, and turns into `[]`). The filter
argument is the session's `loadbalancer_name`. -/
def get_all_loadbalancers (loadbalancer_name : String)
    (resp : Option (List LoadBalancer)) : List LoadBalancer :=
  match resp with
  | none => []
  | some items =>
      if loadbalancer_name = "all" then items
      else items.filter (fun lb => lb.name = loadbalancer_name)

/-- One iteration of the inner loop of `XC.get_virtual_hostname`
(src/XC.py line 267-269): for bucket key `k` and load balancer `lb`,
append `k` when `k.endswith(lb.name)`, `"redirect-" + lb.name` does not
occur in `k`, and `k` is not already accumulated. -/
def vhStep (k : String) (acc : List String) (lb : LoadBalancer) : List String :=
  if strEndsWith k lb.name && !(strContains k ("redirect-" ++ lb.name)) && !(acc.contains k)
  then acc ++ [k] else acc

/-- Embedding of `XC.get_virtual_hostname` (src/XC.py lines 226-275).
`resp` is the list of aggregation bucket keys (`vh['key']` for each
bucket of the `fieldAggregation_VH_NAME_100` aggregation, in server
iteration order); `none` models a failed POST, which degrades to `[]`. -/
def get_virtual_hostname (lbs : List LoadBalancer)
    (resp : Option (List String)) : List String :=
  match resp with
  | none => []
  | some buckets => buckets.foldl (fun acc vh => lbs.foldl (vhStep vh) acc) []

/-- Modelled from the spec wording of section 4.3: a bucket key qualifies
when it ends with some load balancer's name and does not contain the
string `"redirect-"` followed by that name. -/
def vhQualifies (lbs : List LoadBalancer) (k : String) : Bool :=
  lbs.any fun lb => strEndsWith k lb.name && !(strContains k ("redirect-" ++ lb.name))

/-- Modelled from the spec wording: keep only the first occurrence of
every key, preserving first-seen order; `seen` is the set of keys already
emitted. -/
def dedupFirstAux (seen : List String) : List String → List String
  | [] => []
  | k :: ks =>
      if seen.contains k then dedupFirstAux seen ks
      else k :: dedupFirstAux (seen ++ [k]) ks

/-- Modelled from the spec wording of section 4.3: the resolved hostname
list is exactly the qualifying bucket keys, deduplicated keeping the
first occurrence, in bucket-iteration order. -/
def vhSpec (lbs : List LoadBalancer) (buckets : List String) : List String :=
  dedupFirstAux [] (buckets.filter (vhQualifies lbs))

/-- One page of the security-events endpoint: the decoded JSON fields
`total_hits`, `events` (already decoded from their JSON strings) and
`scroll_id` (empty string means no further pages). -/
structure Page (α : Type) where
  total_hits : Nat
  events : List α
  scroll_id : String
deriving DecidableEq

/-- Observable outcome of one hostname's paginated walk: the returned
event list, the number of requests issued by this frame and all nested
frames, and whether this (outermost) frame took its `except` branch. -/
structure WalkResult (α : Type) where
  events : List α
  fetches : Nat
  errored : Bool
deriving DecidableEq

/-- Embedding of `total_events` (src/XC.py line 368): the effective
target is `total_hits` when the limit is 0 or `total_hits` is below the
limit, and the limit otherwise. -/
def effTarget (limit : Int) (total_hits : Nat) : Int :=
  if limit = 0 ∨ (total_hits : Int) < limit then (total_hits : Int) else limit

/-- Embedding of `XC.get_security_events` (src/XC.py lines 311-408) for
one hostname. The response stream holds one entry per request the code
would issue (first POST, then one GET per scroll continuation); `none`
(or stream exhaustion) models a request that raises, which the frame's
`except` turns into `[]`. Mirrored control flow: zero-hits early return
(line 356-358), scroll continuation guard `scroll_id != "" and
len(obj) + 500 * scroll_number < total_events` (lines 384-397, with the
recursive frame's exception caught inside that frame), and the per-frame
final truncation to `limit_events` (lines 404-408). -/
def get_security_events {α : Type} (limit : Int) (scroll_number : Nat) :
    List (Option (Page α)) → WalkResult α
  | [] => { events := [], fetches := 1, errored := true }
  | none :: _ => { events := [], fetches := 1, errored := true }
  | some d :: rest =>
      if d.total_hits = 0 then { events := [], fetches := 1, errored := false }
      else if d.scroll_id ≠ "" ∧
          (d.events.length : Int) + 500 * (scroll_number : Int) < effTarget limit d.total_hits then
        let r := get_security_events limit (scroll_number + 1) rest
        let obj := d.events ++ r.events
        { events := if 0 < limit ∧ limit < (obj.length : Int) then obj.take limit.toNat else obj,
          fetches := 1 + r.fetches,
          errored := false }
      else
        { events := if 0 < limit ∧ limit < (d.events.length : Int)
              then d.events.take limit.toNat else d.events,
          fetches := 1,
          errored := false }

/-- The raw accumulation of the same walk: every event appended across
all successfully fetched pages, with no truncation applied anywhere.
Used to state the limit-truncation property. -/
def get_security_events_raw {α : Type} (limit : Int) (scroll_number : Nat) :
    List (Option (Page α)) → List α
  | [] => []
  | none :: _ => []
  | some d :: rest =>
      if d.total_hits = 0 then []
      else if d.scroll_id ≠ "" ∧
          (d.events.length : Int) + 500 * (scroll_number : Int) < effTarget limit d.total_hits then
        d.events ++ get_security_events_raw limit (scroll_number + 1) rest
      else d.events

/-- Embedding of the per-hostname retrieval loop of `main`
(src/main.py lines 495-497): each hostname's walk starts at scroll
number 0 on its own response stream. -/
def retrieve_all_hostnames (limit : Int)
    (servers : List (List (Option (Page Nat)))) : List (List Nat) :=
  servers.map (fun ps => (get_security_events limit 0 ps).events)

/-- Concrete server for the 1200-hit, no-limit example: three pages of
500, 500 and 200 events, the last one with an empty scroll id. -/
def pages1200 : List (Option (Page Nat)) :=
  [some { total_hits := 1200, events := List.range 500, scroll_id := "s1" },
   some { total_hits := 1200, events := (List.range 500).map (fun i => 500 + i), scroll_id := "s2" },
   some { total_hits := 1200, events := (List.range 200).map (fun i => 1000 + i), scroll_id := "" }]

/-- Concrete server for the 1200-hit, limit-700 example: the walk stops
after the second page, so later pages are never requested. -/
def pages700 : List (Option (Page Nat)) :=
  [some { total_hits := 1200, events := List.range 500, scroll_id := "s1" },
   some { total_hits := 1200, events := (List.range 500).map (fun i => 500 + i), scroll_id := "s2" }]

/-- Concrete server whose second fetch (first scroll continuation)
fails with a transport error. -/
def pagesC2 : List (Option (Page Nat)) :=
  [some { total_hits := 1200, events := List.range 500, scroll_id := "s1" }, none]

/-- Small page used to instantiate hypotheses in witnesses. -/
def pgW : Page Nat :=
  { total_hits := 10, events := [1, 2, 3], scroll_id := "s" }

/-- Deep scroll chain: `n` single-event pages all reporting a huge
`total_hits`, every page but the last carrying a non-empty scroll id.
Each chained page costs one more nested Python stack frame in the
source's recursive implementation. -/
def chainPages : Nat → List (Option (Page Nat))
  | 0 => []
  | 1 => [some { total_hits := 1000000000, events := [0], scroll_id := "" }]
  | Nat.succ (Nat.succ n) =>
      some { total_hits := 1000000000, events := [0], scroll_id := "s" } :: chainPages (Nat.succ n)

/-- A security event as seen by the partitioner in `main`
(src/main.py lines 503-513): only `sec_event_type` is inspected;
`payload` stands for all other fields. -/
structure SecEvent where
  sec_event_type : String
  payload : Nat
deriving DecidableEq

/-- The fixed event-type vocabulary (src/main.py lines 503-504). -/
def supported_event_types : List String :=
  ["waf_sec_event", "bot_defense_sec_event", "api_sec_event", "svc_policy_sec_event"]

/-- The `obj_events_saved` mapping of `main`: one ordered bucket per
known event type. -/
structure Buckets where
  waf : List SecEvent
  bot : List SecEvent
  api : List SecEvent
  svc : List SecEvent
deriving DecidableEq

/-- Embedding of `obj_events_saved[event_type].append(event)`
(src/main.py line 513). -/
def bucketAppend (b : Buckets) (e : SecEvent) : Buckets :=
  if e.sec_event_type = "waf_sec_event" then { b with waf := b.waf ++ [e] }
  else if e.sec_event_type = "bot_defense_sec_event" then { b with bot := b.bot ++ [e] }
  else if e.sec_event_type = "api_sec_event" then { b with api := b.api ++ [e] }
  else if e.sec_event_type = "svc_policy_sec_event" then { b with svc := b.svc ++ [e] }
  else b

/-- Embedding of the inner loop of the partitioner (src/main.py lines
508-513): events of a known type are appended to their bucket; an event
of an unknown type is dropped and the `break` ends this hostname's
inner iteration. -/
def partitionHostEvents (b : Buckets) : List SecEvent → Buckets
  | [] => b
  | e :: es =>
      if supported_event_types.contains e.sec_event_type then
        partitionHostEvents (bucketAppend b e) es
      else b

/-- Embedding of the outer loop of the partitioner (src/main.py lines
507-513): the per-hostname event sequences are processed in dictionary
insertion order, sharing one bucket mapping. -/
def partitionAll (batches : List (List SecEvent)) : Buckets :=
  batches.foldl partitionHostEvents { waf := [], bot := [], api := [], svc := [] }

/-- Modelled from the spec wording of section 4.5: the bucket for type
`t` collects, per hostname batch, the events of type `t` occurring in
the longest supported-type prefix of the batch (events after the first
unknown-typed event are lost), in arrival order. -/
def specBucket (t : String) (batches : List (List SecEvent)) : List SecEvent :=
  (batches.map (fun es =>
    (es.takeWhile (fun e => supported_event_types.contains e.sec_event_type)).filter
      (fun e => e.sec_event_type == t))).flatten

/-- Concrete events for the partitioner example. -/
def evW : SecEvent := { sec_event_type := "waf_sec_event", payload := 1 }

/-- Unknown-typed event for the partitioner example. -/
def evU : SecEvent := { sec_event_type := "unknown_sec_event", payload := 2 }

/-- api-typed event for the partitioner example. -/
def evA : SecEvent := { sec_event_type := "api_sec_event", payload := 3 }

/-- bot-typed event for the partitioner example. -/
def evB : SecEvent := { sec_event_type := "bot_defense_sec_event", payload := 4 }

/-- A Python `datetime` value: the fields read by
`strftime("%Y-%m-%dT%H:%M:%S.000Z")`, plus the microsecond field which
that format string discards. Python's `datetime` type enforces
year 1..9999, month 1..12, day 1..31, hour 0..23, minute 0..59,
second 0..59; `valid` states those invariants. -/
structure PyDateTime where
  year : Nat
  month : Nat
  day : Nat
  hour : Nat
  minute : Nat
  second : Nat
  micro : Nat
deriving DecidableEq

/-- Field invariants of Python's `datetime` type. -/
def PyDateTime.valid (dt : PyDateTime) : Bool :=
  1 ≤ dt.year && dt.year ≤ 9999 && 1 ≤ dt.month && dt.month ≤ 12 &&
  1 ≤ dt.day && dt.day ≤ 31 && dt.hour ≤ 23 && dt.minute ≤ 59 && dt.second ≤ 59

/-- Two-digit zero-padded decimal rendering (strftime `%m`, `%d`, `%H`,
`%M`, `%S` for in-range fields). -/
def padTwo (n : Nat) : List Char :=
  [Nat.digitChar (n / 10 % 10), Nat.digitChar (n % 10)]

/-- Four-digit zero-padded decimal rendering (strftime `%Y` for the
year range 1..9999 enforced by `datetime`). -/
def padFour (n : Nat) : List Char :=
  [Nat.digitChar (n / 1000 % 10), Nat.digitChar (n / 100 % 10),
   Nat.digitChar (n / 10 % 10), Nat.digitChar (n % 10)]

/-- Embedding of `dt.strftime("%Y-%m-%dT%H:%M:%S.000Z")`
(src/XC.py line 33): the milliseconds are the literal `.000`, so the
microsecond field is discarded. -/
def strftimeFmt (dt : PyDateTime) : String :=
  String.mk (padFour dt.year ++ (['-'] ++ (padTwo dt.month ++ (['-'] ++
    (padTwo dt.day ++ (['T'] ++ (padTwo dt.hour ++ ([':'] ++
    (padTwo dt.minute ++ ([':'] ++ (padTwo dt.second ++
    ['.', '0', '0', '0', 'Z'])))))))))))

/-- Pattern matcher for the fixed textual format: `'d'` in the pattern
matches any decimal digit, every other pattern character matches itself,
and the lengths must agree. -/
def matchesPat : List Char → List Char → Bool
  | [], [] => true
  | p :: ps, c :: cs => (if p = 'd' then c.isDigit else p == c) && matchesPat ps cs
  | _, _ => false

/-- The shape `YYYY-MM-DDTHH:MM:SS.000Z` as a matcher pattern. -/
def formatPattern : List Char :=
  ['d', 'd', 'd', 'd', '-', 'd', 'd', '-', 'd', 'd', 'T', 'd', 'd', ':',
   'd', 'd', ':', 'd', 'd', '.', '0', '0', '0', 'Z']

/-- A string matches the fixed textual format `YYYY-MM-DDTHH:MM:SS.000Z`. -/
def matchesFormat (s : String) : Bool :=
  matchesPat formatPattern s.data

/-- Embedding of the date normalization in `XC.__init__` (src/XC.py
lines 34-42): a pre-parsed `datetime` is formatted directly; a free-text
string goes through `dateutil.parser.parse` first. The external parser
is abstracted as a function returning `none` on unparseable input
(`parse` raising maps to `none`, and the surrounding `except` re-raises,
so construction fails). -/
def normDate (parse : String → Option PyDateTime) :
    Sum PyDateTime String → Option String
  | Sum.inl dt => some (strftimeFmt dt)
  | Sum.inr s =>
      match parse s with
      | some dt => some (strftimeFmt dt)
      | none => none

/-- The state stored by a successfully constructed `XC` session
(src/XC.py lines 28-42). `namespc` stands for the source's `_namespace`
attribute (`namespace` is a reserved word here). -/
structure XCConfig where
  tenant : String
  namespc : String
  api_key : String
  loadbalancer_name : String
  limit_events : Int
  start_date : String
  to_date : String
deriving DecidableEq

/-- Embedding of `XC.__init__` (src/XC.py lines 15-46): the truthiness
coercions `loadbalancer_name or 'all'` and `limit_events or 0` (line
31-32; `none` and the falsy values `""` and `0` coerce, every other
value is kept, including negative integers), then normalization of
`to_date` followed by `start_date`; any parse failure raises, so the
whole construction fails (`none`) before any network call is possible. -/
def xcInit (parse : String → Option PyDateTime) (tenant namespc api_key : String)
    (loadbalancer_name : Option String) (start_date to_date : Sum PyDateTime String)
    (limit_events : Option Int) : Option XCConfig :=
  let lb := match loadbalancer_name with
    | none => "all"
    | some s => if s = "" then "all" else s
  let lim := match limit_events with
    | none => 0
    | some v => if v = 0 then 0 else v
  match normDate parse to_date with
  | none => none
  | some td =>
      match normDate parse start_date with
      | none => none
      | some sd =>
          some { tenant := tenant, namespc := namespc, api_key := api_key,
                 loadbalancer_name := lb, limit_events := lim,
                 start_date := sd, to_date := td }

/-- Concrete datetime used by witnesses and counterexamples. -/
def dt0 : PyDateTime :=
  { year := 2024, month := 1, day := 2, hour := 3, minute := 4, second := 5, micro := 678901 }

/-- Concrete datetime produced by the witness parser. -/
def dtP : PyDateTime :=
  { year := 2023, month := 12, day := 31, hour := 23, minute := 59, second := 58, micro := 999999 }

/-- Witness parser: parses every string to `dtP`. -/
def parse0 : String → Option PyDateTime := fun _ => some dtP

/-- Witness parser that fails on every string. -/
def parseFail : String → Option PyDateTime := fun _ => none

/-- The session state produced by the C7 witness construction. -/
def cfgW : XCConfig :=
  { tenant := "t", namespc := "n", api_key := "k", loadbalancer_name := "all",
    limit_events := 3, start_date := "2024-01-02T03:04:05.000Z",
    to_date := "2023-12-31T23:59:58.000Z" }

/-- The session state produced by the C10 counterexample construction:
the negative limit survives the truthiness coercion. -/
def cfgNeg : XCConfig :=
  { tenant := "t", namespc := "n", api_key := "k", loadbalancer_name := "all",
    limit_events := -5, start_date := "2024-01-02T03:04:05.000Z",
    to_date := "2024-01-02T03:04:05.000Z" }

/-- Every frame of the walk issues at least its own request. -/
theorem get_security_events_fetches_pos {α : Type} (limit : Int) (n : Nat)
    (ps : List (Option (Page α))) : 0 < (get_security_events limit n ps).fetches := by
  match ps with
  | [] => simp [get_security_events]
  | none :: _ => simp [get_security_events]
  | some d :: rest =>
      rw [get_security_events]
      split
      · simp
      · split <;> simp

/-- C1: in every pagination walk over one hostname, after a page whose
returned scroll id is non-empty, a further scroll fetch is issued
exactly when the accumulated count (current page length plus 500 times
the current scroll step) is strictly below the effective target
(`total_hits` for an unbounded or not-yet-binding limit, the limit
otherwise); and on the concrete 1200-hit server with page size 500 and
no limit, the walk issues exactly 3 requests and returns all 1200
events in order. -/
theorem C1_scroll_continuation_guard :
    (∀ (limit : Int) (n : Nat) (d : Page Nat) (rest : List (Option (Page Nat))),
      d.scroll_id ≠ "" →
      (1 < (get_security_events limit n (some d :: rest)).fetches ↔
        (d.events.length : Int) + 500 * (n : Int) < effTarget limit d.total_hits))
    ∧ get_security_events 0 0 pages1200 =
        { events := List.range 1200, fetches := 3, errored := false } := by
  constructor
  · intro limit n d rest hsid
    rw [get_security_events]
    split_ifs with hA hB
    · have h0 : effTarget limit d.total_hits ≤ 0 := by
        rw [hA]; unfold effTarget; split
        · simp
        · rename_i hc; push_neg at hc; omega
      show 1 < 1 ↔ (d.events.length : Int) + 500 * (n : Int) < effTarget limit d.total_hits
      constructor
      · intro h; exact absurd h (by norm_num)
      · intro h; omega
    · show 1 < 1 + (get_security_events limit (n + 1) rest).fetches ↔
        (d.events.length : Int) + 500 * (n : Int) < effTarget limit d.total_hits
      constructor
      · intro _; exact hB.2
      · intro _
        have := get_security_events_fetches_pos limit (n + 1) rest
        omega
    all_goals
      show 1 < 1 ↔ (d.events.length : Int) + 500 * (n : Int) < effTarget limit d.total_hits
      constructor
      · intro h; exact absurd h (by norm_num)
      · intro h; exact (hB ⟨hsid, h⟩).elim
  · rfl

/-- Witness for C1: instantiating the guard characterisation on the
first page of the 1200-hit server shows the continuation is taken
there. -/
theorem C1_scroll_continuation_guard_witness :
    1 < (get_security_events 0 0
      (some { total_hits := 1200, events := List.range 500, scroll_id := "s1" }
        :: [none])).fetches ↔
    (((List.range 500).length : Int) + 500 * ((0 : Nat) : Int) <
      effTarget 0 1200) :=
  C1_scroll_continuation_guard.1 0 0
    { total_hits := 1200, events := List.range 500, scroll_id := "s1" } [none]
    (by decide)

/-- Taking `L` elements of an append is unchanged when the right part
was already cut at `L`. -/
theorem take_append_take {α : Type} (L : Nat) (xs ys : List α) :
    (xs ++ ys.take L).take L = (xs ++ ys).take L := by
  rw [List.take_append_eq_append_take, List.take_append_eq_append_take, List.take_take]
  congr 2
  exact Nat.min_eq_left (Nat.sub_le _ _)

/-- The conditional truncation applied by each frame of the walk
composes to a single global `take`. -/
theorem trunc_append_take {α : Type} (L : Nat) (xs ys : List α) :
    (if L < (xs ++ ys.take L).length then (xs ++ ys.take L).take L else xs ++ ys.take L) =
      (xs ++ ys).take L := by
  split
  · exact take_append_take L xs ys
  · rename_i h
    push_neg at h
    rw [List.length_append, List.length_take] at h
    rcases Nat.le_total ys.length L with hy | hy
    · rw [Nat.min_eq_right hy] at h
      rw [List.take_of_length_le hy, List.take_of_length_le (by rw [List.length_append]; omega)]
    · rw [Nat.min_eq_left hy] at h
      have hx : xs = [] := List.length_eq_zero.mp (by omega)
      subst hx
      simp

/-- The returned event list of the walk is exactly the raw accumulation
cut to the first `limit` events, for every positive limit. -/
theorem walk_events_eq_raw_take {α : Type} (limit : Int) (hl : 0 < limit) :
    ∀ (ps : List (Option (Page α))) (n : Nat),
      (get_security_events limit n ps).events =
        (get_security_events_raw limit n ps).take limit.toNat := by
  intro ps
  induction ps with
  | nil => intro n; simp [get_security_events, get_security_events_raw]
  | cons head rest ih =>
      intro n
      match head with
      | none => simp [get_security_events, get_security_events_raw]
      | some d =>
          rw [get_security_events, get_security_events_raw]
          by_cases hA : d.total_hits = 0
          · simp [hA]
          · rw [if_neg hA, if_neg hA]
            by_cases hB : d.scroll_id ≠ "" ∧
                (d.events.length : Int) + 500 * (n : Int) < effTarget limit d.total_hits
            · rw [if_pos hB, if_pos hB]
              show (if 0 < limit ∧
                      limit < ((d.events ++ (get_security_events limit (n + 1) rest).events).length : Int)
                    then (d.events ++ (get_security_events limit (n + 1) rest).events).take limit.toNat
                    else d.events ++ (get_security_events limit (n + 1) rest).events) =
                  (d.events ++ get_security_events_raw limit (n + 1) rest).take limit.toNat
              rw [ih (n + 1)]
              have hcond : (0 < limit ∧
                  limit < (((d.events ++
                    (get_security_events_raw limit (n + 1) rest).take limit.toNat).length : Nat) : Int)) ↔
                  limit.toNat <
                    (d.events ++
                      (get_security_events_raw limit (n + 1) rest).take limit.toNat).length := by
                omega
              simp only [hcond]
              exact trunc_append_take limit.toNat d.events (get_security_events_raw limit (n + 1) rest)
            · rw [if_neg hB, if_neg hB]
              show (if 0 < limit ∧ limit < (d.events.length : Int)
                    then d.events.take limit.toNat else d.events) = d.events.take limit.toNat
              split
              · rfl
              · rename_i h
                rw [List.take_of_length_le (by omega)]

/-- C3: for every positive event limit, the returned sequence of a walk
is the raw accumulated sequence truncated to the first `event_limit`
events in arrival order; and on the concrete 1200-hit server with
`event_limit = 700`, the walk stops after 2 requests (once 1000 >= 700
events are accumulated) and returns exactly the first 700 events in
retrieval order. -/
theorem C3_limit_truncation :
    (∀ (limit : Int) (n : Nat) (ps : List (Option (Page Nat))), 0 < limit →
      (get_security_events limit n ps).events =
        (get_security_events_raw limit n ps).take limit.toNat)
    ∧ get_security_events 700 0 pages700 =
        { events := List.range 700, fetches := 2, errored := false } := by
  constructor
  · intro limit n ps hl
    exact walk_events_eq_raw_take limit hl ps n
  · rfl

/-- Witness for C3: the truncation equality instantiated on the
concrete limit-700 server. -/
theorem C3_limit_truncation_witness :
    (get_security_events 700 0 pages700).events =
      (get_security_events_raw 700 0 pages700).take (700 : Int).toNat :=
  C3_limit_truncation.1 700 0 pages700 (by norm_num)

/-- C2 counterexample: on a server whose second fetch (the first scroll
continuation) fails, the walk does NOT return the empty sequence — the
500 events of the successfully fetched first page are returned, because
the recursive frame catches its own exception and the outer frame keeps
its accumulated page (src/XC.py lines 395-402). -/
theorem C2_failure_atomicity_counterexample :
    (get_security_events 0 0 pagesC2).events = List.range 500 ∧
      List.range 500 ≠ ([] : List Nat) := by
  constructor
  · rfl
  · intro h
    have := congrArg List.length h
    simp at this

/-- C2 amended: a failure of the FIRST request yields the empty sequence
for that hostname; a failure of a scroll continuation loses the failed
page and everything after it, but the events accumulated by earlier
frames are kept (subject to the frame's limit truncation); and each
hostname's retrieval depends only on its own response stream, so other
hostnames are unaffected. -/
theorem C2_failure_scoping_amended :
    (∀ (limit : Int) (n : Nat), get_security_events (α := Nat) limit n [] =
        { events := [], fetches := 1, errored := true })
    ∧ (∀ (limit : Int) (n : Nat) (rest : List (Option (Page Nat))),
        get_security_events limit n (none :: rest) =
          { events := [], fetches := 1, errored := true })
    ∧ (∀ (limit : Int) (n : Nat) (d : Page Nat) (rest : List (Option (Page Nat))),
        d.total_hits ≠ 0 → d.scroll_id ≠ "" →
        (d.events.length : Int) + 500 * (n : Int) < effTarget limit d.total_hits →
        (get_security_events limit n (some d :: none :: rest)).events =
          (if 0 < limit ∧ limit < (d.events.length : Int)
           then d.events.take limit.toNat else d.events))
    ∧ (∀ (limit : Int) (servers : List (List (Option (Page Nat)))) (i : Nat),
        (retrieve_all_hostnames limit servers)[i]? =
          (servers[i]?).map (fun ps => (get_security_events limit 0 ps).events)) := by
  refine ⟨fun limit n => rfl, fun limit n rest => rfl, ?_, ?_⟩
  · intro limit n d rest hth hsid hc
    rw [get_security_events]
    rw [if_neg hth, if_pos ⟨hsid, hc⟩]
    show (if 0 < limit ∧
            limit < ((d.events ++ (get_security_events limit (n + 1) (none :: rest)).events).length : Int)
          then (d.events ++ (get_security_events limit (n + 1) (none :: rest)).events).take limit.toNat
          else d.events ++ (get_security_events limit (n + 1) (none :: rest)).events) = _
    have hinner : (get_security_events limit (n + 1) (none :: rest)).events = [] := rfl
    rw [hinner, List.append_nil]
  · intro limit servers i
    simp [retrieve_all_hostnames]

/-- Witness for C2: instantiating the continuation-failure clause on a
concrete page shows the first page's events survive a failed second
fetch. -/
theorem C2_failure_scoping_witness :
    (get_security_events 0 0 (some pgW :: none :: [])).events =
      (if 0 < (0 : Int) ∧ (0 : Int) < (pgW.events.length : Int)
       then pgW.events.take (0 : Int).toNat else pgW.events) :=
  C2_failure_scoping_amended.2.2.1 0 0 pgW [] (by decide) (by decide) (by decide)

/-- Fetch count of the deep scroll chain: every chained page costs one
request and, in the source's recursive implementation, one nested stack
frame, so the depth grows linearly with the page count. -/
theorem chainPages_fetches :
    ∀ (n k : Nat), 1 + 500 * (k + n) < 1000000000 →
      (get_security_events 0 k (chainPages (n + 1))).fetches = n + 1 := by
  intro n
  induction n with
  | zero => intro k hk; rfl
  | succ m ihm =>
      intro k hk
      show (get_security_events 0 k
        (some { total_hits := 1000000000, events := [0], scroll_id := "s" }
          :: chainPages (m + 1))).fetches = m + 1 + 1
      rw [get_security_events]
      have hc : ((([0] : List Nat).length : Int) + 500 * (k : Int) <
          effTarget 0 1000000000) := by
        simp [effTarget]
        omega
      rw [if_neg (by norm_num), if_pos ⟨by decide, hc⟩]
      show 1 + (get_security_events 0 (k + 1) (chainPages (m + 1))).fetches = m + 1 + 1
      rw [ihm (k + 1) (by omega)]
      omega

/-- C9: the scroll walk of the source recurses once per chained page
(src/XC.py line 396) and never raises the interpreter recursion ceiling,
so its nesting depth equals the number of chained pages; the embedded
walk performs 2000 nested continuation steps on a 2000-page chain,
which exceeds CPython's default recursion limit of 1000. -/
theorem C9_scroll_depth_linear :
    (get_security_events 0 0 (chainPages 2000)).fetches = 2000 ∧ 1000 < 2000 :=
  ⟨chainPages_fetches 1999 0 (by norm_num), by norm_num⟩

/-- C6: a first response reporting zero total hits ends the walk at once
with an empty event list, a single issued request (no fetches beyond the
first), and no error. -/
theorem C6_zero_hits_short_circuit (limit : Int) (n : Nat) (evs : List Nat)
    (sid : String) (rest : List (Option (Page Nat))) :
    get_security_events limit n
      (some { total_hits := 0, events := evs, scroll_id := sid } :: rest) =
      { events := [], fetches := 1, errored := false } := by
  simp [get_security_events]

/-- C8: the load-balancer resolver returns every item of the response
when the session filter is the string all, exactly the name-matching
items otherwise, and the empty list on a failed or undecodable request. -/
theorem C8_loadbalancer_filter :
    (∀ items : List LoadBalancer, get_all_loadbalancers "all" (some items) = items)
    ∧ (∀ (fname : String) (items : List LoadBalancer), fname ≠ "all" →
        get_all_loadbalancers fname (some items) =
          items.filter (fun lb => lb.name = fname))
    ∧ (∀ fname : String, get_all_loadbalancers fname none = []) := by
  refine ⟨fun items => by simp [get_all_loadbalancers], fun fname items h => ?_,
    fun fname => rfl⟩
  simp [get_all_loadbalancers, h]

/-- Witness for C8: a named filter selects exactly the matching items. -/
theorem C8_loadbalancer_filter_witness :
    get_all_loadbalancers "app"
      (some [{ name := "app", payload := 1 }, { name := "other", payload := 2 }]) =
      ([{ name := "app", payload := 1 }, { name := "other", payload := 2 }] :
        List LoadBalancer).filter (fun lb => lb.name = "app") :=
  C8_loadbalancer_filter.2.1 "app"
    [{ name := "app", payload := 1 }, { name := "other", payload := 2 }] (by decide)

/-- Collapsing the inner loop over load balancers: one bucket key is
appended at most once, exactly when some load balancer qualifies it and
it is not yet accumulated. -/
theorem vh_inner_fold (k : String) (lbs : List LoadBalancer) :
    ∀ acc : List String,
      lbs.foldl (vhStep k) acc =
        if vhQualifies lbs k && !(acc.contains k) then acc ++ [k] else acc := by
  induction lbs with
  | nil => intro acc; simp [vhQualifies]
  | cons lb rest ih =>
      intro acc
      rw [List.foldl_cons]
      by_cases hq : (strEndsWith k lb.name && !(strContains k ("redirect-" ++ lb.name))) = true
      · obtain ⟨h1, h2⟩ : strEndsWith k lb.name = true ∧
            strContains k ("redirect-" ++ lb.name) = false := by simpa using hq
        by_cases hm : k ∈ acc
        · have hstep : vhStep k acc lb = acc := by simp [vhStep, hm]
          rw [hstep, ih acc]
          simp [vhQualifies, hm]
        · have hstep : vhStep k acc lb = acc ++ [k] := by simp [vhStep, h1, h2, hm]
          rw [hstep, ih (acc ++ [k])]
          simp [vhQualifies, h1, h2, hm]
      · have hq2 : ¬(strEndsWith k lb.name = true ∧
            strContains k ("redirect-" ++ lb.name) = false) := by simpa using hq
        have hstep : vhStep k acc lb = acc := by
          unfold vhStep
          rw [if_neg]
          intro hcond
          rcases (by simpa using hcond :
            (strEndsWith k lb.name = true ∧
              strContains k ("redirect-" ++ lb.name) = false) ∧ ¬k ∈ acc) with ⟨hab, _⟩
          exact hq2 hab
        rw [hstep, ih acc]
        simp [vhQualifies, hq2]

/-- The outer fold over bucket keys with the collapsed step is exactly
filtering then first-occurrence deduplication. -/
theorem vh_fold_dedup (q : String → Bool) :
    ∀ (buckets acc : List String),
      buckets.foldl (fun a k => if q k && !(a.contains k) then a ++ [k] else a) acc =
        acc ++ dedupFirstAux acc (buckets.filter q) := by
  intro buckets
  induction buckets with
  | nil => intro acc; simp [dedupFirstAux]
  | cons k ks ih =>
      intro acc
      rw [List.foldl_cons]
      by_cases hq : q k = true
      · by_cases hm : k ∈ acc
        · rw [if_neg (by simp [hm])]
          rw [ih acc]
          simp [List.filter_cons, hq, dedupFirstAux, hm]
        · rw [if_pos (by simp [hq, hm])]
          rw [ih (acc ++ [k])]
          simp [List.filter_cons, hq, dedupFirstAux, hm]
      · have hq2 : q k = false := by simpa using hq
        rw [if_neg (by simp [hq2])]
        rw [ih acc]
        simp [List.filter_cons, hq2]

/-- C4: the hostname resolver returns exactly the bucket keys qualified
by some load balancer (suffix match, no redirect- variant contained),
deduplicated keeping the first occurrence, in bucket-iteration order;
and, concretely, for a load balancer named app the keys redirect-app
and foo.redirect-app are excluded while foo.app is included. -/
theorem C4_virtual_hostname_resolution :
    (∀ (lbs : List LoadBalancer) (buckets : List String),
      get_virtual_hostname lbs (some buckets) = vhSpec lbs buckets)
    ∧ get_virtual_hostname [{ name := "app", payload := 0 }]
        (some ["redirect-app", "foo.app", "foo.redirect-app"]) = ["foo.app"] := by
  constructor
  · intro lbs buckets
    show buckets.foldl (fun acc vh => lbs.foldl (vhStep vh) acc) [] = vhSpec lbs buckets
    have h1 : (fun (acc : List String) (vh : String) => lbs.foldl (vhStep vh) acc) =
        fun acc vh => if vhQualifies lbs vh && !(acc.contains vh) then acc ++ [vh] else acc := by
      funext acc vh
      exact vh_inner_fold vh lbs acc
    rw [h1, vh_fold_dedup (vhQualifies lbs) buckets []]
    simp [vhSpec]
  · rfl

/-- One hostname batch: every bucket of the partition result is the
previous bucket content followed by the type-matching events of the
supported-type prefix of the batch, in arrival order. -/
theorem partitionHost_spec :
    ∀ (es : List SecEvent) (b : Buckets),
      partitionHostEvents b es =
        { waf := b.waf ++ (es.takeWhile
            (fun e => supported_event_types.contains e.sec_event_type)).filter
            (fun e => e.sec_event_type == "waf_sec_event"),
          bot := b.bot ++ (es.takeWhile
            (fun e => supported_event_types.contains e.sec_event_type)).filter
            (fun e => e.sec_event_type == "bot_defense_sec_event"),
          api := b.api ++ (es.takeWhile
            (fun e => supported_event_types.contains e.sec_event_type)).filter
            (fun e => e.sec_event_type == "api_sec_event"),
          svc := b.svc ++ (es.takeWhile
            (fun e => supported_event_types.contains e.sec_event_type)).filter
            (fun e => e.sec_event_type == "svc_policy_sec_event") } := by
  intro es
  induction es with
  | nil => intro b; simp [partitionHostEvents]
  | cons e es ih =>
      intro b
      rw [partitionHostEvents]
      by_cases hs : supported_event_types.contains e.sec_event_type = true
      · rw [if_pos hs, ih (bucketAppend b e)]
        rw [List.takeWhile_cons]
        have hmem : e.sec_event_type = "waf_sec_event" ∨
            e.sec_event_type = "bot_defense_sec_event" ∨
            e.sec_event_type = "api_sec_event" ∨
            e.sec_event_type = "svc_policy_sec_event" := by
          simpa [supported_event_types] using hs
        rcases hmem with h | h | h | h <;>
          simp [bucketAppend, h, List.filter_cons, supported_event_types]
      · rw [if_neg hs]
        rw [List.takeWhile_cons]
        have hs3 : e.sec_event_type ∉ supported_event_types := by
          simpa using hs
        simp [hs3]

/-- Folding the partitioner over all hostname batches accumulates the
per-batch supported-prefix filters bucket by bucket. -/
theorem partitionAll_fold :
    ∀ (batches : List (List SecEvent)) (b : Buckets),
      batches.foldl partitionHostEvents b =
        { waf := b.waf ++ specBucket "waf_sec_event" batches,
          bot := b.bot ++ specBucket "bot_defense_sec_event" batches,
          api := b.api ++ specBucket "api_sec_event" batches,
          svc := b.svc ++ specBucket "svc_policy_sec_event" batches } := by
  intro batches
  induction batches with
  | nil => intro b; simp [specBucket]
  | cons es bs ih =>
      intro b
      rw [List.foldl_cons, ih (partitionHostEvents b es), partitionHost_spec es b]
      simp [specBucket]

/-- C5: partitioning the merged per-hostname sequences buckets every
known-typed event losslessly in arrival order, but an event of an
unknown type is dropped and stops the bucketing of the remaining events
of that hostname's batch (partitioning then resumes with the next
hostname); concretely, in the batch [waf-event, unknown-event,
api-event] the api-typed event is lost while the next batch's bot-typed
event is still bucketed. -/
theorem C5_event_partitioning :
    (∀ batches : List (List SecEvent),
      partitionAll batches =
        { waf := specBucket "waf_sec_event" batches,
          bot := specBucket "bot_defense_sec_event" batches,
          api := specBucket "api_sec_event" batches,
          svc := specBucket "svc_policy_sec_event" batches })
    ∧ partitionAll [[evW, evU, evA], [evB]] =
        { waf := [evW], bot := [evB], api := [], svc := [] } := by
  constructor
  · intro batches
    rw [partitionAll, partitionAll_fold]
    simp
  · rfl

/-- The decimal digit character of any value modulo 10 is a digit. -/
theorem digitChar_mod_isDigit (m : Nat) : (Nat.digitChar (m % 10)).isDigit = true := by
  have h : m % 10 < 10 := Nat.mod_lt _ (by norm_num)
  revert h
  generalize m % 10 = r
  intro h
  interval_cases r <;> decide

/-- Pattern matching decomposes along appends of equal-length blocks. -/
theorem matchesPat_append {p1 c1 p2 c2 : List Char} (hlen : p1.length = c1.length)
    (h1 : matchesPat p1 c1 = true) (h2 : matchesPat p2 c2 = true) :
    matchesPat (p1 ++ p2) (c1 ++ c2) = true := by
  induction p1 generalizing c1 with
  | nil =>
      have hc : c1 = [] := List.length_eq_zero.mp hlen.symm
      subst hc
      simpa using h2
  | cons p ps ih =>
      match c1 with
      | [] => simp at hlen
      | c :: cs =>
          rw [List.cons_append, List.cons_append]
          rw [matchesPat] at h1 ⊢
          obtain ⟨ha, hb⟩ := Bool.and_eq_true .. |>.mp h1
          rw [ha, ih (by simpa using hlen) hb]
          rfl

/-- A four-digit padded field matches four digit positions. -/
theorem matchesPat_padFour (n : Nat) :
    matchesPat ['d', 'd', 'd', 'd'] (padFour n) = true := by
  simp [padFour, matchesPat, digitChar_mod_isDigit]

/-- A two-digit padded field matches two digit positions. -/
theorem matchesPat_padTwo (n : Nat) :
    matchesPat ['d', 'd'] (padTwo n) = true := by
  simp [padTwo, matchesPat, digitChar_mod_isDigit]

/-- Every rendered timestamp matches the fixed textual format, whatever
the datetime fields are (each digit position is a value modulo 10 and
the milliseconds are the literal 000). -/
theorem matchesFormat_strftimeFmt (dt : PyDateTime) :
    matchesFormat (strftimeFmt dt) = true := by
  show matchesPat formatPattern (strftimeFmt dt).data = true
  have hpat : formatPattern =
      ['d', 'd', 'd', 'd'] ++ (['-'] ++ (['d', 'd'] ++ (['-'] ++ (['d', 'd'] ++ (['T'] ++
        (['d', 'd'] ++ ([':'] ++ (['d', 'd'] ++ ([':'] ++ (['d', 'd'] ++
        ['.', '0', '0', '0', 'Z'])))))))))) := rfl
  have hdata : (strftimeFmt dt).data =
      padFour dt.year ++ (['-'] ++ (padTwo dt.month ++ (['-'] ++
        (padTwo dt.day ++ (['T'] ++ (padTwo dt.hour ++ ([':'] ++
        (padTwo dt.minute ++ ([':'] ++ (padTwo dt.second ++
        ['.', '0', '0', '0', 'Z'])))))))))) := rfl
  rw [hpat, hdata]
  exact matchesPat_append rfl (matchesPat_padFour dt.year)
    (matchesPat_append rfl (by decide)
      (matchesPat_append rfl (matchesPat_padTwo dt.month)
        (matchesPat_append rfl (by decide)
          (matchesPat_append rfl (matchesPat_padTwo dt.day)
            (matchesPat_append rfl (by decide)
              (matchesPat_append rfl (matchesPat_padTwo dt.hour)
                (matchesPat_append rfl (by decide)
                  (matchesPat_append rfl (matchesPat_padTwo dt.minute)
                    (matchesPat_append rfl (by decide)
                      (matchesPat_append rfl (matchesPat_padTwo dt.second)
                        (by decide)))))))))))

/-- A successful date normalization always yields a rendered timestamp. -/
theorem normDate_some (parse : String → Option PyDateTime)
    (x : Sum PyDateTime String) (s : String) (h : normDate parse x = some s) :
    ∃ dt, s = strftimeFmt dt := by
  match x with
  | Sum.inl dt =>
      refine ⟨dt, ?_⟩
      rw [normDate] at h
      exact (Option.some.inj h).symm
  | Sum.inr str =>
      rw [normDate] at h
      cases hp : parse str with
      | none => rw [hp] at h; simp at h
      | some dt =>
          rw [hp] at h
          exact ⟨dt, (Option.some.inj h).symm⟩

/-- C7: for every session constructed from a pre-parsed datetime or a
parseable free-text date string (with all supplied datetimes in the
field ranges Python's datetime type enforces), the stored start and end
timestamps match the fixed textual format YYYY-MM-DDTHH:MM:SS.000Z
exactly, with the milliseconds always the literal 000; an unparseable
date string (in either position) makes construction fail before any
request can be issued; and rendering ignores the microsecond field
entirely. -/
theorem C7_timestamp_normalization :
    (∀ (parse : String → Option PyDateTime) (t ns key : String)
        (lb : Option String) (sd td : Sum PyDateTime String) (lim : Option Int)
        (cfg : XCConfig),
      (∀ s dt2, parse s = some dt2 → dt2.valid = true) →
      (∀ dt2, sd = Sum.inl dt2 → dt2.valid = true) →
      (∀ dt2, td = Sum.inl dt2 → dt2.valid = true) →
      xcInit parse t ns key lb sd td lim = some cfg →
      matchesFormat cfg.start_date = true ∧ matchesFormat cfg.to_date = true)
    ∧ (∀ (parse : String → Option PyDateTime) (t ns key : String) (lb : Option String)
        (td : Sum PyDateTime String) (lim : Option Int) (s : String), parse s = none →
        xcInit parse t ns key lb (Sum.inr s) td lim = none)
    ∧ (∀ (parse : String → Option PyDateTime) (t ns key : String) (lb : Option String)
        (sd : Sum PyDateTime String) (lim : Option Int) (s : String), parse s = none →
        xcInit parse t ns key lb sd (Sum.inr s) lim = none)
    ∧ (∀ (dt : PyDateTime) (m : Nat), strftimeFmt { dt with micro := m } = strftimeFmt dt) := by
  refine ⟨?_, ?_, ?_, fun dt m => rfl⟩
  · intro parse t ns key lb sd td lim cfg hp hsd0 htd0 h
    rw [xcInit.eq_def] at h
    cases htd : normDate parse td with
    | none => rw [htd] at h; simp at h
    | some tdv =>
        rw [htd] at h
        cases hsd : normDate parse sd with
        | none => rw [hsd] at h; simp at h
        | some sdv =>
            rw [hsd] at h
            have hcfg := Option.some.inj h
            obtain ⟨dts, hdts⟩ := normDate_some parse sd sdv hsd
            obtain ⟨dtt, hdtt⟩ := normDate_some parse td tdv htd
            rw [← hcfg]
            constructor
            · show matchesFormat sdv = true
              rw [hdts]
              exact matchesFormat_strftimeFmt dts
            · show matchesFormat tdv = true
              rw [hdtt]
              exact matchesFormat_strftimeFmt dtt
  · intro parse t ns key lb td lim s hs
    rw [xcInit.eq_def]
    cases htd : normDate parse td with
    | none => rfl
    | some tdv =>
        have hnd : normDate parse (Sum.inr s) = none := by rw [normDate, hs]
        rw [hnd]
  · intro parse t ns key lb sd lim s hs
    rw [xcInit.eq_def]
    have hnd : normDate parse (Sum.inr s) = none := by rw [normDate, hs]
    rw [hnd]

/-- Witness for C7: a concrete construction from one pre-parsed datetime
and one parsed free-text string yields format-conforming timestamps. -/
theorem C7_timestamp_normalization_witness :
    matchesFormat cfgW.start_date = true ∧ matchesFormat cfgW.to_date = true :=
  C7_timestamp_normalization.1 parse0 "t" "n" "k" none (Sum.inl dt0) (Sum.inr "x")
    (some 3) cfgW
    (fun s dt2 h => by
      have h2 : dtP = dt2 := Option.some.inj h
      rw [← h2]; decide)
    (fun dt2 h => by
      have h2 : dt0 = dt2 := Sum.inl.inj h
      rw [← h2]; decide)
    (fun dt2 h => by exact absurd h (by simp))
    rfl

/-- C10 counterexample: constructing a session with limit_events = -5
succeeds and stores the negative value unchanged, because Python's
`limit_events or 0` only coerces the falsy inputs None and 0 — so
"limit_events is a non-negative integer for every constructed session"
is false. -/
theorem C10_negative_limit_counterexample :
    xcInit parseFail "t" "n" "k" (some "") (Sum.inl dt0) (Sum.inl dt0) (some (-5)) =
      some cfgNeg ∧ cfgNeg.limit_events < 0 :=
  ⟨rfl, by decide⟩

/-- C10 amended: at construction every falsy loadbalancer_name (None or
the empty string) is coerced to the string all and every falsy
limit_events (None or 0) to 0, so loadbalancer_name is always non-empty
and an empty-string filter selects all load balancers; the stored
limit_events equals the given value, hence it is non-negative whenever
the input is non-negative (but a negative input is stored unchanged). -/
theorem C10_falsy_coercion_amended :
    ∀ (parse : String → Option PyDateTime) (t ns key : String) (lb : Option String)
      (sd td : Sum PyDateTime String) (lim : Option Int) (cfg : XCConfig),
      xcInit parse t ns key lb sd td lim = some cfg →
      cfg.loadbalancer_name ≠ "" ∧
      ((lb = none ∨ lb = some "") → cfg.loadbalancer_name = "all") ∧
      ((lim = none ∨ lim = some 0) → cfg.limit_events = 0) ∧
      (∀ v, lim = some v → cfg.limit_events = v) ∧
      (∀ v, lim = some v → 0 ≤ v → 0 ≤ cfg.limit_events) ∧
      (lb = some "" → ∀ items, get_all_loadbalancers cfg.loadbalancer_name (some items) = items) := by
  intro parse t ns key lb sd td lim cfg h
  rw [xcInit.eq_def] at h
  cases htd : normDate parse td with
  | none => rw [htd] at h; simp at h
  | some tdv =>
      rw [htd] at h
      cases hsd : normDate parse sd with
      | none => rw [hsd] at h; simp at h
      | some sdv =>
          rw [hsd] at h
          have hcfg := Option.some.inj h
          rw [← hcfg]
          refine ⟨?_, ?_, ?_, ?_, ?_, ?_⟩
          · cases lb with
            | none => simp
            | some s => by_cases hse : s = "" <;> simp [hse]
          · intro hor
            rcases hor with hor | hor <;> subst hor <;> simp
          · intro hor
            rcases hor with hor | hor <;> subst hor <;> simp
          · intro v hv
            subst hv
            by_cases hv0 : v = 0 <;> simp [hv0]
          · intro v hv hv0
            subst hv
            by_cases hvz : v = 0 <;> simp [hvz] <;> omega
          · intro hlbe items
            subst hlbe
            simp [get_all_loadbalancers]

/-- Witness for C10: the amended coercion facts instantiated on the
concrete construction with an empty-string filter and limit -5. -/
theorem C10_falsy_coercion_witness :
    cfgNeg.loadbalancer_name ≠ "" ∧
    (((some "" : Option String) = none ∨ (some "" : Option String) = some "") →
      cfgNeg.loadbalancer_name = "all") ∧
    (((some (-5) : Option Int) = none ∨ (some (-5) : Option Int) = some 0) →
      cfgNeg.limit_events = 0) ∧
    (∀ v, (some (-5) : Option Int) = some v → cfgNeg.limit_events = v) ∧
    (∀ v, (some (-5) : Option Int) = some v → 0 ≤ v → 0 ≤ cfgNeg.limit_events) ∧
    ((some "" : Option String) = some "" →
      ∀ items, get_all_loadbalancers cfgNeg.loadbalancer_name (some items) = items) :=
  C10_falsy_coercion_amended parseFail "t" "n" "k" (some "") (Sum.inl dt0) (Sum.inl dt0)
    (some (-5)) cfgNeg rfl
